import Mathlib

/-!
Verification of the script-to-render video pipeline (src/lib/video-generator.js)
and the job/progress tracker (progress-tracker module) by shallow embedding.

Numbers are embedded as exact rationals (ℚ); JavaScript string primitives used
by the source (`split(' ')`, `toLowerCase`, falsy-default `||`) are embedded as
structurally recursive Lean functions below.  I/O effects (provider search,
file download, placeholder synthesis, file writes) are embedded as explicit
environments of outcomes, so every fallible path of the source is represented
as an `Except` value.
-/

/-- Embedding of the JavaScript `String.prototype.split` with a one-character
separator: the string is cut at every occurrence of the separator, keeping
empty pieces (`''.split(' ') = ['']`, `'a  b'.split(' ') = ['a','','b']`). -/
def splitCharAux (p : Char → Bool) : List Char → List Char → List String
  | [], acc => [String.mk acc.reverse]
  | c :: cs, acc =>
      if p c then String.mk acc.reverse :: splitCharAux p cs []
      else splitCharAux p cs (c :: acc)

/-- Split a string at every character satisfying `p` (JS `split` semantics). -/
def jsSplit (p : Char → Bool) (s : String) : List String :=
  splitCharAux p s.data []

/-- JS `voiceover.split(' ')`. -/
def jsSplitSpace (s : String) : List String :=
  jsSplit (fun c => c = ' ') s

/-- Embedding of JS `String.prototype.toLowerCase` (ASCII range, which is all
the source's keyword tables use). -/
def jsToLower (s : String) : String :=
  String.mk (s.data.map Char.toLower)

/-- Embedding of JS `a.includes(b)` on strings: substring test. -/
def hasSubstrL : List Char → List Char → Bool
  | [], pat => pat.isEmpty
  | c :: rest, pat => pat.isPrefixOf (c :: rest) || hasSubstrL rest pat

def jsIncludes (s pat : String) : Bool :=
  hasSubstrL s.data pat.data

/-- Embedding of the JS falsy-default idiom `x || d` for a numeric field that
may be absent: `undefined` and `0` both fall back to the default. -/
def jsNumOr : Option ℚ → ℚ → ℚ
  | some q, d => if q = 0 then d else q
  | none, d => d

/-- Embedding of the JS falsy-default idiom `x || d` for a string field that
may be absent: `undefined` and `''` both fall back to the default. -/
def jsStrOr : Option String → String → String
  | some s, d => if s = "" then d else s
  | none, d => d

/-- A raw JavaScript value as stored in a script's `visualDirection` field:
the analyzer must cope with absent and non-string values (spec §4.1). -/
inductive JsVal where
  | undefined : JsVal
  | str : String → JsVal
  | num : ℚ → JsVal
deriving DecidableEq

/-- JS truthiness for `JsVal`. -/
def JsVal.truthy : JsVal → Bool
  | .undefined => false
  | .str s => s ≠ ""
  | .num q => q ≠ 0

/-- JS `a || b` on raw values. -/
def jsOrVal (a b : JsVal) : JsVal :=
  if a.truthy then a else b

/-! ## Script Analyzer (video-generator.js, `analyzeScript` and helpers) -/

/-- A raw scene descriptor as received by `analyzeScript` (fields optional,
`visualDirection` possibly a non-string value as claim C6 requires). -/
structure RawScene where
  startTime : Option ℚ
  endTime : Option ℚ
  voiceover : Option String
  visualDirection : JsVal
  onScreenText : Option String
deriving DecidableEq

/-- A raw script document (`script` argument of `analyzeScript`). -/
structure RawScript where
  title : Option String
  duration : Option ℚ
  platform : Option String
  scenes : List RawScene
deriving DecidableEq

/-- An analyzed scene, as pushed onto `analysis.scenes` by `analyzeScript`. -/
structure Scene where
  id : String
  startTime : ℚ
  endTime : ℚ
  duration : ℚ
  voiceover : String
  visualDirection : String
  onScreenText : String
  searchKeywords : String
  mediaType : String
deriving DecidableEq

/-- The analysis record returned by `analyzeScript`. -/
structure ScriptAnalysis where
  title : String
  totalDuration : ℚ
  platform : String
  scenes : List Scene
deriving DecidableEq

/-- The stop-word list of `extractVisualKeywords`. -/
def commonWords : List String :=
  ["show", "display", "see", "watch", "look", "view", "screen", "appears"]

/-- JS whitespace characters relevant to `\s` (ASCII fragment; the analyzer
only ever feeds it text whose non-word characters were replaced by `' '`). -/
def isJsWs (c : Char) : Bool :=
  c = ' ' ∨ c = '\t' ∨ c = '\n' ∨ c = '\r'

/-- JS word characters `\w` = `[A-Za-z0-9_]`. -/
def isWordChar (c : Char) : Bool :=
  c.isAlphanum ∨ c = '_'

/-- Keyword extraction on an actual string, embedding the body of
`extractVisualKeywords`: lower-case, replace `[^\w\s]` by a space, split on
whitespace, drop stop words and tokens of length ≤ 2, keep the first five,
join with spaces.  (Splitting at every whitespace character instead of at
whitespace runs only differs in empty tokens, which the length filter
removes.) -/
def extractKeywordsStr (text : String) : String :=
  let cleaned := String.mk ((jsToLower text).data.map
    (fun c => if isWordChar c ∨ isJsWs c then c else ' '))
  let words := (jsSplit isJsWs cleaned).filter
    (fun w => 2 < w.length ∧ w ∉ commonWords)
  String.intercalate " " (words.take 5)

/-- Embedding of `extractVisualKeywords(text)`: the source immediately calls
`text.toLowerCase()`, which throws a `TypeError` when the argument is not a
string (absent or numeric). -/
def extractVisualKeywords : JsVal → Except String String
  | .str s => .ok (extractKeywordsStr s)
  | .undefined => .error "TypeError: cannot read text.toLowerCase of undefined"
  | .num _ => .error "TypeError: text.toLowerCase is not a function"

/-- The motion keyword list of `determineMediaType`. -/
def videoKeywords : List String :=
  ["motion", "moving", "animation", "transition", "time-lapse", "action"]

/-- Embedding of `determineMediaType(visualDirection)`: absent or non-string
input defaults to `image`; otherwise `video` iff a motion keyword occurs. -/
def determineMediaType (vd : JsVal) : String :=
  match vd with
  | .str s =>
      if s = "" then "image"
      else if videoKeywords.any (fun k => jsIncludes (jsToLower s) k) then "video"
      else "image"
  | _ => "image"

/-- The raw value `scene.voiceover` as a `JsVal` (narration is text when
present). -/
def voiceVal : Option String → JsVal
  | some s => .str s
  | none => .undefined

/-- Embedding of one iteration of the `analyzeScript` loop (0-based index
`i`).  The object literal evaluates `extractVisualKeywords(
scene.visualDirection || scene.voiceover)`, whose `TypeError` aborts the whole
analysis, so the scene is built inside `Except`. -/
def analyzeScene (i : ℕ) (sc : RawScene) : Except String Scene := do
  let kw ← extractVisualKeywords (jsOrVal sc.visualDirection (voiceVal sc.voiceover))
  pure
    { id := "scene_" ++ toString (i + 1)
      startTime := jsNumOr sc.startTime 0
      endTime := jsNumOr sc.endTime 5
      duration := jsNumOr sc.endTime 5 - jsNumOr sc.startTime 0
      voiceover := jsStrOr sc.voiceover ""
      visualDirection := (match sc.visualDirection with | .str s => s | _ => "")
      onScreenText := jsStrOr sc.onScreenText ""
      searchKeywords := kw
      mediaType := determineMediaType sc.visualDirection }

/-- The `analyzeScript` scene loop. -/
def analyzeScenes : ℕ → List RawScene → Except String (List Scene)
  | _, [] => .ok []
  | i, sc :: rest => do
      let s ← analyzeScene i sc
      let ss ← analyzeScenes (i + 1) rest
      pure (s :: ss)

/-- Embedding of `analyzeScript(script)`. -/
def analyzeScript (script : RawScript) : Except String ScriptAnalysis := do
  let scenes ← analyzeScenes 0 script.scenes
  pure
    { title := jsStrOr script.title "Generated Video"
      totalDuration := jsNumOr script.duration 30
      platform := jsStrOr script.platform "general"
      scenes := scenes }

/-! ## Caption Timer (video-generator.js, `generateCaptions`) -/

/-- One caption entry pushed by `generateCaptions`.  Spoken segments carry no
`type` field in the source (`type := none`); on-screen-text entries carry
`type: 'overlay'`. -/
structure CaptionSeg where
  startTime : ℚ
  endTime : ℚ
  text : String
  type : Option String
  sceneId : String
deriving DecidableEq

/-- Embedding of the word walk of `generateCaptions` for one scene.  State:
remaining words, `currentCaption` buffer, `currentTime` clock and
`captionStartTime`.  A segment is pushed whenever the re-split buffer reaches
6 words or the last word is consumed, with `endTime = min(currentTime,
scene.endTime)`; the buffer is then cleared and `captionStartTime` advanced to
the (unclamped) clock. -/
def capLoop (sid : String) (sceneEnd wd : ℚ) :
    List String → String → ℚ → ℚ → List CaptionSeg
  | [], _, _, _ => []
  | w :: ws, buf, clock, capStart =>
      let buf' := buf ++ (if buf ≠ "" then " " else "") ++ w
      let clock' := clock + wd
      if 6 ≤ (jsSplitSpace buf').length ∨ ws = [] then
        ⟨capStart, min clock' sceneEnd, buf', none, sid⟩ ::
          capLoop sid sceneEnd wd ws "" clock' clock'
      else
        capLoop sid sceneEnd wd ws buf' clock' capStart

/-- Caption entries contributed by a single scene: the spoken walk when the
narration is non-empty (`if (scene.voiceover)`), then one overlay entry when
on-screen text is present (`if (scene.onScreenText)`). -/
def sceneCaptions (sc : Scene) : List CaptionSeg :=
  (if sc.voiceover ≠ "" then
      capLoop sc.id sc.endTime (sc.duration / ((jsSplitSpace sc.voiceover).length : ℚ))
        (jsSplitSpace sc.voiceover) "" sc.startTime sc.startTime
    else []) ++
  (if sc.onScreenText ≠ "" then
      [⟨sc.startTime, sc.endTime, sc.onScreenText, some "overlay", sc.id⟩]
    else [])

/-- Embedding of `generateCaptions(sceneAnalysis)`. -/
def generateCaptions (analysis : ScriptAnalysis) : List CaptionSeg :=
  (analysis.scenes.map sceneCaptions).flatten

/-- A caption entry is spoken iff it has no `type` field. -/
def isSpoken (c : CaptionSeg) : Bool :=
  c.type = none

/-- Sum of `endTime - startTime` over a caption list. -/
def sumDur (l : List CaptionSeg) : ℚ :=
  (l.map (fun c => c.endTime - c.startTime)).sum

/-! ## Asset Resolver (video-generator.js, `generateVisualAssets` and the
placeholder cascade) -/

/-- A media candidate returned by the stock-content search. -/
structure Candidate where
  ctype : String
  title : String
deriving DecidableEq

/-- Outcome of `stockContentService.search` for one scene: either the call
throws, or it yields an ordered candidate list (possibly empty). -/
inductive SearchOutcome where
  | throws : String → SearchOutcome
  | results : List Candidate → SearchOutcome
deriving DecidableEq

/-- Environment of collaborator outcomes, keyed by scene id: search result,
whether download-verify-nonempty succeeds, whether the Sharp placeholder
succeeds, and whether the generic fallback image download succeeds. -/
structure ResolveEnv where
  search : String → SearchOutcome
  downloadOk : String → Bool
  sharpOk : String → Bool
  fallbackOk : String → Bool

/-- A resolved visual asset as pushed onto the `assets` array (provenance
metadata collapsed to the distinguishing `title`). -/
structure Asset where
  sceneId : String
  atype : String
  path : String
  title : String
  duration : ℚ
deriving DecidableEq

/-- Embedding of `createPlaceholder` / `createSimplePlaceholder` /
`downloadFallbackImage`: Sharp rendering first, then the hard-coded stock
image, and an error when both fail. -/
def placeholderChain (env : ResolveEnv) (sid : String) : Except String String :=
  if env.sharpOk sid then .ok (sid ++ "_placeholder.png")
  else if env.fallbackOk sid then .ok (sid ++ "_fallback.jpg")
  else .error ("Failed to create any placeholder for scene " ++ sid)

/-- The placeholder asset pushed by a fallback branch (`reason` distinguishes
the three push sites by their titles). -/
def placeholderAsset (sc : Scene) (title path : String) : Asset :=
  ⟨sc.id, "placeholder", path, title, sc.duration⟩

/-- The body of the per-scene `try` block of `generateVisualAssets`: search,
select the first candidate, download and verify, placeholder on empty results
or download failure.  Errors escaping this value are caught by the outer
`catch`. -/
def resolveSceneTry (env : ResolveEnv) (sc : Scene) : Except String Asset :=
  match env.search sc.id with
  | .throws e => .error e
  | .results [] => do
      let p ← placeholderChain env sc.id
      pure (placeholderAsset sc ("Placeholder for " ++ sc.id ++ " (no results)") p)
  | .results (c :: _) =>
      if env.downloadOk sc.id then
        .ok ⟨sc.id, c.ctype,
          sc.id ++ "." ++ (if c.ctype = "video" then "mp4" else "jpg"), c.title, sc.duration⟩
      else do
        let p ← placeholderChain env sc.id
        pure (placeholderAsset sc ("Placeholder for " ++ sc.id ++ " (download failed)") p)

/-- One iteration of the `generateVisualAssets` loop: the outer `catch`
creates one more placeholder; if that also throws, the error propagates out of
the whole function. -/
def resolveScene (env : ResolveEnv) (sc : Scene) : Except String Asset :=
  match resolveSceneTry env sc with
  | .ok a => .ok a
  | .error _ => do
      let p ← placeholderChain env sc.id
      pure (placeholderAsset sc ("Placeholder for " ++ sc.id) p)

/-- Embedding of `generateVisualAssets(sceneAnalysis, projectDir)`: scenes are
processed in order and an uncaught per-scene error aborts the remaining
scenes. -/
def generateVisualAssets (env : ResolveEnv) : List Scene → Except String (List Asset)
  | [] => .ok []
  | sc :: rest => do
      let a ← resolveScene env sc
      let as ← generateVisualAssets env rest
      pure (a :: as)

/-! ## Timeline Assembler (video-generator.js, `createTimeline`) -/

/-- The per-scene transition descriptor. -/
structure Transition where
  ttype : String
  duration : ℚ
deriving DecidableEq

/-- One timeline composite: the spread scene plus its looked-up asset,
filtered captions and default transition. -/
structure Composite where
  scene : Scene
  asset : Option Asset
  captions : List CaptionSeg
  transition : Transition
deriving DecidableEq

/-- The assembled timeline (`id` supplied by the impure `uuidv4()` is taken
as a parameter). -/
structure Timeline where
  id : String
  totalDuration : ℚ
  scenes : List Composite
  captions : List CaptionSeg
deriving DecidableEq

/-- Embedding of `createTimeline(sceneAnalysis, visualAssets, captionData)`. -/
def createTimeline (freshId : String) (analysis : ScriptAnalysis)
    (visualAssets : List Asset) (captionData : List CaptionSeg) : Timeline :=
  { id := freshId
    totalDuration := analysis.totalDuration
    scenes := analysis.scenes.map (fun sc =>
      { scene := sc
        asset := visualAssets.find? (fun a => a.sceneId = sc.id)
        captions := captionData.filter (fun c => c.sceneId = sc.id)
        transition := ⟨"fade", 1/2⟩ })
    captions := captionData }

/-- Sum of the `duration` fields of a scene list (used to state that the
timeline's total is not recomputed from it). -/
def sceneDurSum (scenes : List Scene) : ℚ :=
  (scenes.map Scene.duration).sum

/-! ## Render Pipeline fallback ladder (video-generator.js, `renderVideo` /
`createSlideshowFallback` and the `try/catch` in `generateVideo`) -/

/-- Environment of rendering outcomes: whether the FFmpeg render succeeds,
whether writing the HTML slideshow succeeds, and whether writing the ultimate
JSON data file succeeds. -/
structure RenderEnv where
  renderOk : Bool
  htmlWriteOk : Bool
  jsonWriteOk : Bool
deriving DecidableEq

/-- Embedding of `createSlideshowFallback(timeline, projectDir, videoId)`:
write the HTML slideshow; on failure write the JSON data dump; if that write
also throws, the error escapes the function (its body has no further
handler). -/
def createSlideshowFallback (env : RenderEnv) (videoId : String) :
    Except String String :=
  if env.htmlWriteOk then .ok (videoId ++ "_slideshow.html")
  else if env.jsonWriteOk then .ok (videoId ++ "_data.json")
  else .error "slideshow and data-dump generation both failed"

/-- Embedding of the render stage of `generateVideo`: `renderVideo` inside
`try`, with `createSlideshowFallback` as the `catch` handler. -/
def renderWithFallback (env : RenderEnv) (videoId : String) :
    Except String String :=
  if env.renderOk then .ok (videoId ++ ".mp4")
  else createSlideshowFallback env videoId

/-- The record returned by `saveVideoProject` (fields relevant to artifact
identification): the artifact path is passed through unchanged while
`videoUrl` is always spelled as the `.mp4` location. -/
structure ProjectRecord where
  id : String
  videoPath : String
  status : String
  videoUrl : String
deriving DecidableEq

/-- Embedding of the artifact-identifying fields of `saveVideoProject`. -/
def saveVideoProject (videoId videoPath : String) : ProjectRecord :=
  ⟨videoId, videoPath, "completed", "/output/videos/" ++ videoId ++ ".mp4"⟩

/-! ## Job/Progress Tracker (progress-tracker module) -/

/-- One stage record inside a job. -/
structure Stage where
  name : String
  startTime : ℕ
  endTime : Option ℕ
  duration : Option ℕ
  progress : ℚ
  status : String
  result : Option String
deriving DecidableEq

/-- One entry of a job's error list. -/
structure ErrEntry where
  message : String
  timestamp : ℕ
  stage : Option String
deriving DecidableEq

/-- One entry of a job's warning list. -/
structure WarnEntry where
  message : String
  timestamp : ℕ
  stage : Option String
deriving DecidableEq

/-- A tracked job (fields of the object built by `createJob`; passthrough
fields not observed by any claim, such as `eta` and `metadata`, are
omitted). -/
structure Job where
  id : String
  jtype : String
  status : String
  progress : ℚ
  stages : List Stage
  currentStage : Option String
  startTime : ℕ
  endTime : Option ℕ
  duration : Option ℕ
  errors : List ErrEntry
  warnings : List WarnEntry
  lastUpdate : Option ℕ
  lastMessage : Option String
  result : Option String
  failureReason : Option String
deriving DecidableEq

/-- One entry of `jobHistory`. -/
structure HistEntry where
  id : String
  jtype : String
  status : String
  duration : Option ℕ
  completedAt : ℕ
  errorsCount : ℕ
  warningsCount : ℕ
deriving DecidableEq

/-- A JavaScript `Map<string, Job>` embedded as an association list with
unique keys. -/
abbrev JobMap := List (String × Job)

/-- `Map.get`. -/
def jmGet : JobMap → String → Option Job
  | [], _ => none
  | (k, v) :: rest, key => if k = key then some v else jmGet rest key

/-- `Map.set`: replace the bound value, or append a new binding. -/
def jmSet : JobMap → String → Job → JobMap
  | [], key, v => [(key, v)]
  | (k, w) :: rest, key, v =>
      if k = key then (key, v) :: rest else (k, w) :: jmSet rest key v

/-- `Map.delete`: afterwards `get` returns `undefined` for the key. -/
def jmErase (m : JobMap) (key : String) : JobMap :=
  m.filter (fun p => p.1 ≠ key)

/-- The tracker's mutable state. -/
structure TrackerState where
  active : JobMap
  completed : JobMap
  history : List HistEntry
deriving DecidableEq

/-- Notifications emitted through the tracker's event emitter. -/
inductive Event where
  | created (jobId : String)
  | progress (jobId : String)
  | stageStart (jobId stage : String)
  | stageComplete (jobId stage : String)
  | warning (jobId : String)
  | error (jobId : String)
  | complete (jobId : String)
  | failed (jobId : String)
deriving DecidableEq

/-- Embedding of `createJob(jobId, type)` (timestamps taken from the explicit
`now` parameter standing for `Date.now()`). -/
def createJob (st : TrackerState) (now : ℕ) (jobId jtype : String) :
    TrackerState × List Event × Job :=
  let job : Job :=
    { id := jobId, jtype := jtype, status := "initialized", progress := 0
      stages := [], currentStage := none, startTime := now, endTime := none
      duration := none, errors := [], warnings := [], lastUpdate := none
      lastMessage := none, result := none, failureReason := none }
  ({ st with active := jmSet st.active jobId job }, [.created jobId], job)

/-- Embedding of `completeStage(jobId, stageName, result)`: no-op returning
`null` when the job is not active or the stage is absent; otherwise the first
stage of that name is closed in place. -/
def completeStage (st : TrackerState) (now : ℕ) (jobId stageName : String)
    (res : String) : TrackerState × List Event × Option Stage :=
  match jmGet st.active jobId with
  | none => (st, [], none)
  | some job =>
      match job.stages.find? (fun s => s.name = stageName) with
      | none => (st, [], none)
      | some stg =>
          let stg' : Stage :=
            { stg with endTime := some now, duration := some (now - stg.startTime)
                       status := "completed", progress := 100, result := some res }
          let job' := { job with
            stages := job.stages.map (fun s => if s.name = stageName then stg' else s) }
          ({ st with active := jmSet st.active jobId job' },
            [.stageComplete jobId stageName], some stg')

/-- Embedding of `startStage(jobId, stageName)`: implicitly completes the
current stage, appends the new one, and marks the job `processing`. -/
def startStage (st : TrackerState) (now : ℕ) (jobId stageName : String) :
    TrackerState × List Event × Option Stage :=
  match jmGet st.active jobId with
  | none => (st, [], none)
  | some job =>
      let prev := match job.currentStage with
        | some cur => completeStage st now jobId cur ""
        | none => (st, [], none)
      match jmGet prev.1.active jobId with
      | none => (prev.1, prev.2.1, none)
      | some job1 =>
          let stg : Stage :=
            { name := stageName, startTime := now, endTime := none
              duration := none, progress := 0, status := "in_progress", result := none }
          let job2 := { job1 with stages := job1.stages ++ [stg]
                                  currentStage := some stageName, status := "processing" }
          ({ prev.1 with active := jmSet prev.1.active jobId job2 },
            prev.2.1 ++ [.stageStart jobId stageName], some stg)

/-- The optional `details` argument of `updateProgress`. -/
structure ProgressDetails where
  stage : Option String
  message : Option String
deriving DecidableEq

/-- Write `lastMessage` on an active job (the tail of `updateProgress`). -/
def setLastMessage (st : TrackerState) (jobId msg : String) : TrackerState :=
  match jmGet st.active jobId with
  | none => st
  | some j => { st with active := jmSet st.active jobId { j with lastMessage := some msg } }

/-- Embedding of `updateProgress(jobId, progress, details)`: clamps the new
progress into 0–100 and stores it unconditionally, switches stages when
`details.stage` names a different stage, then emits one progress event. -/
def updateProgress (st : TrackerState) (now : ℕ) (jobId : String) (p : ℚ)
    (details : ProgressDetails) : TrackerState × List Event × Option Job :=
  match jmGet st.active jobId with
  | none => (st, [], none)
  | some job =>
      let job1 := { job with progress := min 100 (max 0 p), lastUpdate := some now }
      let st1 := { st with active := jmSet st.active jobId job1 }
      let afterStage :=
        match details.stage with
        | some s =>
            if s ≠ "" ∧ some s ≠ job1.currentStage then
              let r := startStage st1 now jobId s
              (r.1, r.2.1)
            else (st1, ([] : List Event))
        | none => (st1, [])
      let st2 :=
        match details.message with
        | some m => if m ≠ "" then setLastMessage afterStage.1 jobId m else afterStage.1
        | none => afterStage.1
      (st2, afterStage.2 ++ [.progress jobId], jmGet st2.active jobId)

/-- Embedding of `addWarning(jobId, warning)`: silently returns when the job
is not active; never touches `status`. -/
def addWarning (st : TrackerState) (now : ℕ) (jobId msg : String) :
    TrackerState × List Event :=
  match jmGet st.active jobId with
  | none => (st, [])
  | some job =>
      let job' := { job with
        warnings := job.warnings ++ [⟨msg, now, job.currentStage⟩] }
      ({ st with active := jmSet st.active jobId job' }, [.warning jobId])

/-- Embedding of `addError(jobId, error)`: looks the job up in the active and
then the completed map, appends the error entry, and sets `status` to
`'error'` immediately — also for completed jobs. -/
def addError (st : TrackerState) (now : ℕ) (jobId msg : String) :
    TrackerState × List Event :=
  match jmGet st.active jobId with
  | some job =>
      let job' := { job with errors := job.errors ++ [⟨msg, now, job.currentStage⟩]
                             status := "error" }
      ({ st with active := jmSet st.active jobId job' }, [.error jobId])
  | none =>
      match jmGet st.completed jobId with
      | some job =>
          let job' := { job with errors := job.errors ++ [⟨msg, now, job.currentStage⟩]
                                 status := "error" }
          ({ st with completed := jmSet st.completed jobId job' }, [.error jobId])
      | none => (st, [])

/-- `jobHistory` trimming: keep only the last 1000 entries. -/
def trimHistory (h : List HistEntry) : List HistEntry :=
  if 1000 < h.length then h.drop (h.length - 1000) else h

/-- Embedding of `completeJob(jobId, result)`: closes the current stage,
derives the final status from the error list, moves the job to the completed
map and appends a history entry. -/
def completeJob (st : TrackerState) (now : ℕ) (jobId : String) (res : String) :
    TrackerState × List Event × Option Job :=
  match jmGet st.active jobId with
  | none => (st, [], none)
  | some job =>
      let prev := match job.currentStage with
        | some cur => completeStage st now jobId cur ""
        | none => (st, [], none)
      match jmGet prev.1.active jobId with
      | none => (prev.1, prev.2.1, none)
      | some job1 =>
          let finalStatus :=
            if job1.errors.isEmpty then "completed" else "completed_with_errors"
          let job2 := { job1 with
            endTime := some now, duration := some (now - job1.startTime)
            status := finalStatus, progress := 100, result := some res }
          let hist : HistEntry :=
            ⟨jobId, job2.jtype, finalStatus, job2.duration, now,
              job2.errors.length, job2.warnings.length⟩
          ({ active := jmErase prev.1.active jobId
             completed := jmSet prev.1.completed jobId job2
             history := trimHistory (prev.1.history ++ [hist]) },
            prev.2.1 ++ [.complete jobId], some job2)

/-- Embedding of `failJob(jobId, error)`: records the error through
`addError`, marks the job `failed` and moves it to the completed map. -/
def failJob (st : TrackerState) (now : ℕ) (jobId msg : String) :
    TrackerState × List Event × Option Job :=
  match jmGet st.active jobId with
  | none => (st, [], none)
  | some _ =>
      let after := addError st now jobId msg
      match jmGet after.1.active jobId with
      | none => (after.1, after.2, none)
      | some job1 =>
          let job2 := { job1 with
            endTime := some now, duration := some (now - job1.startTime)
            status := "failed", failureReason := some msg }
          ({ after.1 with active := jmErase after.1.active jobId
                          completed := jmSet after.1.completed jobId job2 },
            after.2 ++ [.failed jobId], some job2)

/-- Embedding of `getJob(jobId)`. -/
def getJob (st : TrackerState) (jobId : String) : Option Job :=
  match jmGet st.active jobId with
  | some j => some j
  | none => jmGet st.completed jobId

/-- Convenience projection: the status a `getJob` snapshot reports. -/
def getJobStatus (st : TrackerState) (jobId : String) : Option String :=
  (getJob st jobId).map Job.status

/-! ## Helper lemmas about the JS string-splitting embedding -/

theorem splitCharAux_ne_nil (p : Char → Bool) (l acc : List Char) :
    splitCharAux p l acc ≠ [] := by
  induction l generalizing acc with
  | nil => simp [splitCharAux]
  | cons c cs ih =>
      simp only [splitCharAux]
      split
      · simp
      · exact ih _

theorem jsSplitSpace_ne_nil (s : String) : jsSplitSpace s ≠ [] :=
  splitCharAux_ne_nil _ _ _

theorem one_le_length_jsSplitSpace (s : String) : 1 ≤ (jsSplitSpace s).length := by
  have h := jsSplitSpace_ne_nil s
  cases hh : jsSplitSpace s with
  | nil => exact absurd hh h
  | cons a t => simp

theorem splitCharAux_append_sep (p : Char → Bool) (c0 : Char) (hp : p c0 = true) :
    ∀ (l1 l2 acc : List Char),
      splitCharAux p (l1 ++ c0 :: l2) acc =
        splitCharAux p l1 acc ++ splitCharAux p l2 [] := by
  intro l1
  induction l1 with
  | nil => intro l2 acc; simp [splitCharAux, hp]
  | cons c cs ih =>
      intro l2 acc
      simp only [List.cons_append, splitCharAux]
      split
      · simp [ih]
      · exact ih _ _

/-- Splitting `a ++ " " ++ w` splits `a` and `w` independently. -/
theorem jsSplitSpace_append_space (a w : String) :
    jsSplitSpace (a ++ " " ++ w) = jsSplitSpace a ++ jsSplitSpace w := by
  have hdata : (a ++ " " ++ w).data = a.data ++ ' ' :: w.data := by
    simp [String.data_append]
  simp only [jsSplitSpace, jsSplit, hdata]
  exact splitCharAux_append_sep _ ' ' (by decide) a.data w.data []

theorem splitCharAux_no_sep (p : Char → Bool) :
    ∀ (l acc : List Char), (∀ c ∈ l, p c = false) →
      splitCharAux p l acc = [String.mk (acc.reverse ++ l)] := by
  intro l
  induction l with
  | nil => intro acc _; simp [splitCharAux]
  | cons c cs ih =>
      intro acc h
      have hc : p c = false := h c (by simp)
      simp only [splitCharAux, hc, Bool.false_eq_true, if_false]
      rw [ih (c :: acc) (fun d hd => h d (by simp [hd]))]
      simp

/-- A string without spaces splits to the singleton of itself. -/
theorem jsSplitSpace_no_space (w : String) (h : ∀ c ∈ w.data, c ≠ ' ') :
    jsSplitSpace w = [w] := by
  simp only [jsSplitSpace, jsSplit]
  rw [splitCharAux_no_sep _ w.data [] (by intro c hc; simp [h c hc])]
  simp

theorem mem_splitCharAux_no_sep (p : Char → Bool) :
    ∀ (l acc : List Char), (∀ c ∈ acc, p c = false) →
      ∀ w ∈ splitCharAux p l acc, ∀ c ∈ w.data, p c = false := by
  intro l
  induction l with
  | nil =>
      intro acc hacc w hw c hc
      simp [splitCharAux] at hw
      subst hw
      simp at hc
      exact hacc c (by simpa using hc)
  | cons d ds ih =>
      intro acc hacc w hw c hc
      by_cases hd : p d = true
      · simp only [splitCharAux, hd, if_true] at hw
        rcases List.mem_cons.mp hw with h1 | h1
        · subst h1
          simp at hc
          exact hacc c (by simpa using hc)
        · exact ih [] (by simp) w h1 c hc
      · simp only [splitCharAux, hd, if_false] at hw
        exact ih (d :: acc) (by
          intro e he
          rcases List.mem_cons.mp he with h1 | h1
          · subst h1; simpa using hd
          · exact hacc e h1) w hw c hc

/-- Every piece produced by the JS space-split is itself space-free. -/
theorem spaceFree_of_mem_jsSplitSpace (s w : String) (h : w ∈ jsSplitSpace s) :
    ∀ c ∈ w.data, c ≠ ' ' := by
  intro c hc
  have := mem_splitCharAux_no_sep (fun c => c = ' ') s.data [] (by simp) w h c hc
  simpa using this

/-! ## Helper lemmas about the caption walk -/

/-- Unfolding of `capLoop` on the empty word list. -/
theorem capLoop_nil (sid : String) (e wd : ℚ) (buf : String) (clock capStart : ℚ) :
    capLoop sid e wd [] buf clock capStart = [] :=
  rfl

/-- One-step unfolding of `capLoop` on a non-empty word list. -/
theorem capLoop_cons (sid : String) (e wd : ℚ) (w : String) (ws : List String)
    (buf : String) (clock capStart : ℚ) :
    capLoop sid e wd (w :: ws) buf clock capStart =
      if 6 ≤ (jsSplitSpace (buf ++ (if buf ≠ "" then " " else "") ++ w)).length ∨ ws = [] then
        ⟨capStart, min (clock + wd) e, buf ++ (if buf ≠ "" then " " else "") ++ w, none, sid⟩ ::
          capLoop sid e wd ws "" (clock + wd) (clock + wd)
      else
        capLoop sid e wd ws (buf ++ (if buf ≠ "" then " " else "") ++ w) (clock + wd) capStart :=
  rfl

theorem capLoop_ne_nil (sid : String) (e wd : ℚ) :
    ∀ (ws : List String) (w buf : String) (clock capStart : ℚ),
      capLoop sid e wd (w :: ws) buf clock capStart ≠ [] := by
  intro ws
  induction ws with
  | nil =>
      intro w buf clock capStart
      rw [capLoop_cons, if_pos (Or.inr rfl)]
      simp
  | cons w2 rest ih =>
      intro w buf clock capStart
      rw [capLoop_cons]
      by_cases hc : 6 ≤ (jsSplitSpace (buf ++ (if buf ≠ "" then " " else "") ++ w)).length ∨
          (w2 :: rest : List String) = []
      · rw [if_pos hc]; simp
      · rw [if_neg hc]; exact ih _ _ _ _

theorem sumDur_cons (a : CaptionSeg) (l : List CaptionSeg) :
    sumDur (a :: l) = (a.endTime - a.startTime) + sumDur l := by
  simp [sumDur]

/-- The spoken-segment durations of one scene walk telescope below the total
word time: clipping by `min` can only shrink each segment. -/
theorem capLoop_sumDur_le (sid : String) (e wd : ℚ) :
    ∀ (ws : List String) (w buf : String) (clock capStart : ℚ),
      sumDur (capLoop sid e wd (w :: ws) buf clock capStart) ≤
        clock + ((ws.length : ℚ) + 1) * wd - capStart := by
  intro ws
  induction ws with
  | nil =>
      intro w buf clock capStart
      rw [capLoop_cons, if_pos (Or.inr rfl), capLoop_nil, sumDur_cons]
      have hmin : min (clock + wd) e ≤ clock + wd := min_le_left _ _
      simp only [sumDur, List.map, List.sum_nil, List.length_nil, Nat.cast_zero,
        zero_add, one_mul]
      linarith
  | cons w2 rest ih =>
      intro w buf clock capStart
      rw [capLoop_cons]
      by_cases hc : 6 ≤ (jsSplitSpace (buf ++ (if buf ≠ "" then " " else "") ++ w)).length ∨
          (w2 :: rest : List String) = []
      · rw [if_pos hc, sumDur_cons]
        have h1 := ih w2 "" (clock + wd) (clock + wd)
        have hmin : min (clock + wd) e ≤ clock + wd := min_le_left _ _
        simp only [List.length_cons] at *
        push_cast at *
        linarith
      · rw [if_neg hc]
        have h1 := ih w2 (buf ++ (if buf ≠ "" then " " else "") ++ w) (clock + wd) capStart
        simp only [List.length_cons] at *
        push_cast at *
        linarith

/-- The last emitted spoken segment of a scene walk ends exactly at the
minimum of the accumulated word clock and the scene end. -/
theorem capLoop_getLast (sid : String) (e wd : ℚ) :
    ∀ (ws : List String) (w buf : String) (clock capStart : ℚ),
      ∃ seg, (capLoop sid e wd (w :: ws) buf clock capStart).getLast? = some seg ∧
        seg.endTime = min (clock + ((ws.length : ℚ) + 1) * wd) e := by
  intro ws
  induction ws with
  | nil =>
      intro w buf clock capStart
      rw [capLoop_cons, if_pos (Or.inr rfl), capLoop_nil]
      refine ⟨_, rfl, ?_⟩
      simp
  | cons w2 rest ih =>
      intro w buf clock capStart
      rw [capLoop_cons]
      by_cases hc : 6 ≤ (jsSplitSpace (buf ++ (if buf ≠ "" then " " else "") ++ w)).length ∨
          (w2 :: rest : List String) = []
      · rw [if_pos hc]
        obtain ⟨seg, hlast, hend⟩ := ih w2 "" (clock + wd) (clock + wd)
        refine ⟨seg, ?_, ?_⟩
        · cases hcl : capLoop sid e wd (w2 :: rest) "" (clock + wd) (clock + wd) with
          | nil => exact absurd hcl (capLoop_ne_nil sid e wd rest w2 "" _ _)
          | cons b t =>
              rw [List.getLast?_cons_cons, ← hcl]
              exact hlast
        · rw [hend]
          congr 1
          simp only [List.length_cons]
          push_cast
          ring
      · rw [if_neg hc]
        obtain ⟨seg, hlast, hend⟩ :=
          ih w2 (buf ++ (if buf ≠ "" then " " else "") ++ w) (clock + wd) capStart
        refine ⟨seg, hlast, ?_⟩
        rw [hend]
        congr 1
        simp only [List.length_cons]
        push_cast
        ring

/-- Every entry the scene walk emits is a spoken segment (no `type` field). -/
theorem capLoop_type_eq_none (sid : String) (e wd : ℚ) :
    ∀ (ws : List String) (buf : String) (clock capStart : ℚ) (seg : CaptionSeg),
      seg ∈ capLoop sid e wd ws buf clock capStart → seg.type = none := by
  intro ws
  induction ws with
  | nil => intro buf clock capStart seg h; rw [capLoop_nil] at h; simp at h
  | cons w rest ih =>
      intro buf clock capStart seg h
      rw [capLoop_cons] at h
      by_cases hc : 6 ≤ (jsSplitSpace (buf ++ (if buf ≠ "" then " " else "") ++ w)).length ∨
          rest = []
      · rw [if_pos hc] at h
        rcases List.mem_cons.mp h with h1 | h1
        · subst h1; rfl
        · exact ih _ _ _ _ h1
      · rw [if_neg hc] at h
        exact ih _ _ _ _ h

/-- Appending one space-free word to the caption buffer grows its re-split
word count by at most one. -/
theorem length_jsSplitSpace_bufAppend (buf w : String) (hw : ∀ c ∈ w.data, c ≠ ' ') :
    (jsSplitSpace (buf ++ (if buf ≠ "" then " " else "") ++ w)).length ≤
      (jsSplitSpace buf).length + 1 := by
  by_cases hb : buf = ""
  · subst hb
    simp only [ne_eq, not_true_eq_false, if_false, reduceIte]
    have : ("" : String) ++ "" ++ w = w := by simp
    rw [this, jsSplitSpace_no_space w hw]
    simp
  · have hsep : (if buf ≠ "" then " " else "") = " " := by simp [hb]
    rw [hsep, jsSplitSpace_append_space, List.length_append, jsSplitSpace_no_space w hw]
    simp

/-- With fewer than six words in total (buffer included) and space-free words,
the walk emits exactly one segment — at the last word. -/
theorem capLoop_length_one (sid : String) (e wd : ℚ) :
    ∀ (ws : List String) (w buf : String) (clock capStart : ℚ),
      (∀ u ∈ w :: ws, ∀ c ∈ u.data, c ≠ ' ') →
      (jsSplitSpace buf).length + (w :: ws).length ≤ 6 →
      (capLoop sid e wd (w :: ws) buf clock capStart).length = 1 := by
  intro ws
  induction ws with
  | nil =>
      intro w buf clock capStart _ _
      rw [capLoop_cons, if_pos (Or.inr rfl), capLoop_nil]
      rfl
  | cons w2 rest ih =>
      intro w buf clock capStart hfree hlen
      rw [capLoop_cons]
      have hw : ∀ c ∈ w.data, c ≠ ' ' := hfree w (by simp)
      have hstep := length_jsSplitSpace_bufAppend buf w hw
      have h1 : 1 ≤ (jsSplitSpace buf).length := one_le_length_jsSplitSpace buf
      simp only [List.length_cons] at hlen
      have hcond : ¬(6 ≤ (jsSplitSpace (buf ++ (if buf ≠ "" then " " else "") ++ w)).length ∨
          (w2 :: rest : List String) = []) := by
        push_neg
        exact ⟨by omega, by simp⟩
      rw [if_neg hcond]
      apply ih w2 (buf ++ (if buf ≠ "" then " " else "") ++ w) (clock + wd) capStart
      · intro u hu
        exact hfree u (List.mem_cons_of_mem _ hu)
      · simp only [List.length_cons]
        omega

/-! ## Helper lemmas about the job-map embedding -/

theorem jmGet_jmSet_self (m : JobMap) (k : String) (v : Job) :
    jmGet (jmSet m k v) k = some v := by
  induction m with
  | nil => simp [jmSet, jmGet]
  | cons p rest ih =>
      by_cases h : p.1 = k
      · simp [jmSet, jmGet, h]
      · simp only [jmSet]
        rw [if_neg ?_]
        · simp only [jmGet]
          rw [if_neg h]
          exact ih
        · exact h

theorem jmGet_jmSet_ne (m : JobMap) (k k' : String) (v : Job) (h : k ≠ k') :
    jmGet (jmSet m k v) k' = jmGet m k' := by
  induction m with
  | nil => simp [jmSet, jmGet, h]
  | cons p rest ih =>
      by_cases hp : p.1 = k
      · simp only [jmSet, hp, if_true, jmGet]
        rw [if_neg h, if_neg h]
      · simp only [jmSet, hp, if_false, jmGet]
        by_cases hp' : p.1 = k'
        · rw [if_pos hp', if_pos hp']
        · rw [if_neg hp', if_neg hp']
          exact ih

theorem jmGet_jmErase_self (m : JobMap) (k : String) :
    jmGet (jmErase m k) k = none := by
  induction m with
  | nil => simp [jmErase, jmGet]
  | cons p rest ih =>
      by_cases h : p.1 = k
      · simpa [jmErase, h] using ih
      · simpa [jmErase, jmGet, h] using ih

theorem jmGet_jmErase_ne (m : JobMap) (k k' : String) (h : k ≠ k') :
    jmGet (jmErase m k) k' = jmGet m k' := by
  induction m with
  | nil => simp [jmErase, jmGet]
  | cons p rest ih =>
      by_cases hp : p.1 = k
      · rw [show jmErase (p :: rest) k = jmErase rest k by simp [jmErase, hp]]
        rw [ih]
        simp only [jmGet]
        rw [if_neg (by rw [hp]; exact h)]
      · rw [show jmErase (p :: rest) k = p :: jmErase rest k by simp [jmErase, hp]]
        simp only [jmGet]
        by_cases hp' : p.1 = k'
        · rw [if_pos hp', if_pos hp']
        · rw [if_neg hp', if_neg hp', ih]

theorem mem_jmSet (m : JobMap) (k : String) (v : Job) (p : String × Job)
    (h : p ∈ jmSet m k v) : p = (k, v) ∨ p ∈ m := by
  induction m with
  | nil => simpa [jmSet] using h
  | cons q rest ih =>
      by_cases hq : q.1 = k
      · rw [show jmSet (q :: rest) k v = (k, v) :: rest by simp [jmSet, hq]] at h
        rcases List.mem_cons.mp h with h1 | h1
        · exact Or.inl h1
        · exact Or.inr (List.mem_cons_of_mem _ h1)
      · rw [show jmSet (q :: rest) k v = q :: jmSet rest k v by simp [jmSet, hq]] at h
        rcases List.mem_cons.mp h with h1 | h1
        · exact Or.inr (by simp [h1])
        · rcases ih h1 with h2 | h2
          · exact Or.inl h2
          · exact Or.inr (List.mem_cons_of_mem _ h2)

theorem mem_jmErase (m : JobMap) (k : String) (p : String × Job)
    (h : p ∈ jmErase m k) : p ∈ m :=
  List.mem_of_mem_filter h

theorem jmGet_mem (m : JobMap) (k : String) (v : Job) (h : jmGet m k = some v) :
    (k, v) ∈ m := by
  induction m with
  | nil => simp [jmGet] at h
  | cons q rest ih =>
      by_cases hq : q.1 = k
      · simp only [jmGet, hq, if_true, Option.some.injEq] at h
        subst h
        rw [← hq]
        simp
      · simp only [jmGet, hq, if_false] at h
        exact List.mem_cons_of_mem _ (ih h)

/-- The spoken part of a scene's captions is exactly the word walk. -/
theorem filter_sceneCaptions_spoken (sc : Scene) (h1 : sc.voiceover ≠ "") :
    (sceneCaptions sc).filter isSpoken =
      capLoop sc.id sc.endTime (sc.duration / ((jsSplitSpace sc.voiceover).length : ℚ))
        (jsSplitSpace sc.voiceover) "" sc.startTime sc.startTime := by
  unfold sceneCaptions
  rw [if_pos h1, List.filter_append]
  have hcap : (capLoop sc.id sc.endTime
      (sc.duration / ((jsSplitSpace sc.voiceover).length : ℚ))
      (jsSplitSpace sc.voiceover) "" sc.startTime sc.startTime).filter isSpoken =
      capLoop sc.id sc.endTime (sc.duration / ((jsSplitSpace sc.voiceover).length : ℚ))
        (jsSplitSpace sc.voiceover) "" sc.startTime sc.startTime := by
    apply List.filter_eq_self.mpr
    intro seg hseg
    have := capLoop_type_eq_none _ _ _ _ _ _ _ _ hseg
    simp [isSpoken, this]
  rw [hcap]
  by_cases ho : sc.onScreenText ≠ ""
  · rw [if_pos ho]
    simp [isSpoken]
  · rw [if_neg ho]
    simp

/-- The non-spoken part of a scene's captions is the overlay entry alone. -/
theorem filter_sceneCaptions_overlay (sc : Scene) :
    (sceneCaptions sc).filter (fun c => c.type = some "overlay") =
      if sc.onScreenText ≠ "" then
        [⟨sc.startTime, sc.endTime, sc.onScreenText, some "overlay", sc.id⟩]
      else [] := by
  unfold sceneCaptions
  rw [List.filter_append]
  have hcap : ∀ (l : List CaptionSeg), (∀ seg ∈ l, seg.type = none) →
      l.filter (fun c => c.type = some "overlay") = [] := by
    intro l hl
    apply List.filter_eq_nil_iff.mpr
    intro seg hseg
    simp [hl seg hseg]
  by_cases hv : sc.voiceover ≠ ""
  · rw [if_pos hv, hcap _ (fun seg hseg => capLoop_type_eq_none _ _ _ _ _ _ _ _ hseg)]
    by_cases ho : sc.onScreenText ≠ ""
    · simp [ho]
    · simp [ho]
  · rw [if_neg hv]
    by_cases ho : sc.onScreenText ≠ ""
    · simp [ho]
    · simp [ho]

/-- C3: for every scene with non-empty narration whose `duration` field is the
scene window `endTime - startTime` (as `analyzeScript` always sets it), the
spoken caption segments emitted for the scene have total duration at most the
scene's duration, and the last spoken segment ends exactly at
`min(runningClock, scene.endTime)` where the running clock is the accumulated
word-duration clock `startTime + wordCount * (duration / wordCount)`. -/
theorem c3_caption_duration_allocation (sc : Scene)
    (h1 : sc.voiceover ≠ "")
    (h2 : sc.duration = sc.endTime - sc.startTime) :
    sumDur ((sceneCaptions sc).filter isSpoken) ≤ sc.endTime - sc.startTime ∧
    ∃ seg, ((sceneCaptions sc).filter isSpoken).getLast? = some seg ∧
      seg.endTime = min (sc.startTime + ((jsSplitSpace sc.voiceover).length : ℚ) *
        (sc.duration / ((jsSplitSpace sc.voiceover).length : ℚ))) sc.endTime := by
  rw [filter_sceneCaptions_spoken sc h1]
  cases hsp : jsSplitSpace sc.voiceover with
  | nil => exact absurd hsp (jsSplitSpace_ne_nil sc.voiceover)
  | cons w ws =>
      have hlen : (((w :: ws).length : ℕ) : ℚ) = (ws.length : ℚ) + 1 := by
        push_cast [List.length_cons]
        ring
      have hnz : (((w :: ws).length : ℕ) : ℚ) ≠ 0 := by
        rw [hlen]
        positivity
      constructor
      · have hle := capLoop_sumDur_le sc.id sc.endTime
          (sc.duration / (((w :: ws).length : ℕ) : ℚ)) ws w "" sc.startTime sc.startTime
        have heq : (((w :: ws).length : ℕ) : ℚ) *
            (sc.duration / (((w :: ws).length : ℕ) : ℚ)) = sc.duration := by
          field_simp
        have heq2 : ((ws.length : ℚ) + 1) *
            (sc.duration / (((w :: ws).length : ℕ) : ℚ)) = sc.duration := by
          rw [← hlen]
          exact heq
        linarith [hle, heq2]
      · obtain ⟨seg, hlast, hend⟩ := capLoop_getLast sc.id sc.endTime
          (sc.duration / (((w :: ws).length : ℕ) : ℚ)) ws w "" sc.startTime sc.startTime
        refine ⟨seg, hlast, ?_⟩
        rw [hend, hlen]

/-- Concrete scene exercising C3: seven words over a 0–7 second window. -/
def c3scene : Scene :=
  ⟨"scene_1", 0, 7, 7, "alpha beta gamma delta epsilon zeta eta", "", "", "", "image"⟩

/-- Witness for C3 at a concrete seven-word scene. -/
theorem c3_caption_duration_allocation_witness :
    sumDur ((sceneCaptions c3scene).filter isSpoken) ≤ c3scene.endTime - c3scene.startTime ∧
    ∃ seg, ((sceneCaptions c3scene).filter isSpoken).getLast? = some seg ∧
      seg.endTime = min (c3scene.startTime + ((jsSplitSpace c3scene.voiceover).length : ℚ) *
        (c3scene.duration / ((jsSplitSpace c3scene.voiceover).length : ℚ)))
        c3scene.endTime :=
  c3_caption_duration_allocation c3scene (by decide) (by norm_num [c3scene])

/-- Scene B of the spec's two-scene example: 5–10 s, narration
`thanks for watching`, on-screen text `SUBSCRIBE`. -/
def sceneB : Scene :=
  ⟨"scene_2", 5, 10, 5, "thanks for watching", "", "SUBSCRIBE", "", "image"⟩

/-- C8: a non-empty narration of fewer than six words yields exactly one
spoken segment; empty narration yields none; a scene with on-screen text
yields exactly one overlay segment spanning the full scene window, regardless
of the spoken chunking; and scene B of the spec's example yields one spoken
segment plus the 5–10 s `SUBSCRIBE` overlay. -/
theorem c8_caption_edge_cases :
    (∀ sc : Scene, sc.voiceover ≠ "" → (jsSplitSpace sc.voiceover).length < 6 →
        ((sceneCaptions sc).filter isSpoken).length = 1) ∧
    (∀ sc : Scene, sc.voiceover = "" →
        ((sceneCaptions sc).filter isSpoken).length = 0) ∧
    (∀ sc : Scene, sc.onScreenText ≠ "" →
        (sceneCaptions sc).filter (fun c => c.type = some "overlay") =
          [⟨sc.startTime, sc.endTime, sc.onScreenText, some "overlay", sc.id⟩]) ∧
    sceneCaptions sceneB =
      [⟨5, 10, "thanks for watching", none, "scene_2"⟩,
       ⟨5, 10, "SUBSCRIBE", some "overlay", "scene_2"⟩] := by
  refine ⟨?_, ?_, ?_, ?_⟩
  · intro sc h1 hlt
    rw [filter_sceneCaptions_spoken sc h1]
    cases hsp : jsSplitSpace sc.voiceover with
    | nil => exact absurd hsp (jsSplitSpace_ne_nil sc.voiceover)
    | cons w ws =>
        apply capLoop_length_one
        · intro u hu
          exact spaceFree_of_mem_jsSplitSpace sc.voiceover u (hsp ▸ hu)
        · have hempty : (jsSplitSpace "").length = 1 := by decide
          rw [hsp] at hlt
          omega
  · intro sc h0
    unfold sceneCaptions
    rw [if_neg (by simp [h0])]
    by_cases ho : sc.onScreenText ≠ ""
    · rw [if_pos ho]
      simp [isSpoken]
    · rw [if_neg ho]
      simp
  · intro sc ho
    rw [filter_sceneCaptions_overlay sc, if_pos ho]
  · have h : jsSplitSpace "thanks for watching" = ["thanks", "for", "watching"] := by decide
    simp +decide [sceneCaptions, sceneB, capLoop, min_def, jsSplitSpace, jsSplit, splitCharAux]
    norm_num

/-- Concrete two-word scene exercising the fewer-than-six-words edge of C8. -/
def c8scene : Scene :=
  ⟨"scene_1", 0, 5, 5, "hello world", "", "", "", "image"⟩

/-- Witness for C8 at a concrete two-word scene. -/
theorem c8_caption_edge_cases_witness :
    ((sceneCaptions c8scene).filter isSpoken).length = 1 :=
  c8_caption_edge_cases.1 c8scene (by decide) (by decide)

/-- A concrete analysis whose scene durations sum to 7 while the script-level
total duration is 30 (the decoupling documented in the spec). -/
def divergentAnalysis : ScriptAnalysis :=
  { title := "t", totalDuration := 30, platform := "general"
    scenes :=
      [⟨"scene_1", 0, 3, 3, "a", "", "", "", "image"⟩,
       ⟨"scene_2", 3, 7, 4, "b", "", "", "", "image"⟩] }

/-- C9: the assembled timeline takes its total duration from the analysis
(script target), not from the sum of scene durations; it has one composite per
scene in scene order, each with the asset looked up by scene id, the captions
filtered by scene id, and the default 0.5-second fade transition — including
on a concrete input whose scene durations sum to 7 while the total stays 30. -/
theorem c9_timeline_assembly (freshId : String) (analysis : ScriptAnalysis)
    (visualAssets : List Asset) (captionData : List CaptionSeg) :
    (createTimeline freshId analysis visualAssets captionData).totalDuration =
        analysis.totalDuration ∧
    (createTimeline freshId analysis visualAssets captionData).scenes.length =
        analysis.scenes.length ∧
    (∀ i : ℕ, (createTimeline freshId analysis visualAssets captionData).scenes[i]? =
        (analysis.scenes[i]?).map (fun sc =>
          { scene := sc
            asset := visualAssets.find? (fun a => a.sceneId = sc.id)
            captions := captionData.filter (fun c => c.sceneId = sc.id)
            transition := ⟨"fade", 1/2⟩ })) ∧
    ((createTimeline freshId divergentAnalysis visualAssets captionData).totalDuration = 30 ∧
      sceneDurSum divergentAnalysis.scenes = 7) := by
  refine ⟨rfl, by simp [createTimeline], ?_, rfl, ?_⟩
  · intro i
    simp [createTimeline]
  · simp [sceneDurSum, divergentAnalysis]
    norm_num

/-- C10: every tracker operation invoked with a job id that is neither active
nor completed leaves the state unchanged, emits no event, and returns
null/undefined; `getJob` returns `undefined` rather than raising. -/
theorem c10_unknown_job_noop (st : TrackerState) (jobId : String)
    (ha : jmGet st.active jobId = none) (hc : jmGet st.completed jobId = none) :
    (∀ (now : ℕ) (p : ℚ) (det : ProgressDetails),
        updateProgress st now jobId p det = (st, [], none)) ∧
    (∀ (now : ℕ) (name : String), startStage st now jobId name = (st, [], none)) ∧
    (∀ (now : ℕ) (name res : String),
        completeStage st now jobId name res = (st, [], none)) ∧
    (∀ (now : ℕ) (msg : String), addWarning st now jobId msg = (st, [])) ∧
    (∀ (now : ℕ) (msg : String), addError st now jobId msg = (st, [])) ∧
    (∀ (now : ℕ) (res : String), completeJob st now jobId res = (st, [], none)) ∧
    (∀ (now : ℕ) (msg : String), failJob st now jobId msg = (st, [], none)) ∧
    getJob st jobId = none := by
  refine ⟨?_, ?_, ?_, ?_, ?_, ?_, ?_, ?_⟩
  · intro now p det; simp [updateProgress, ha]
  · intro now name; simp [startStage, ha]
  · intro now name res; simp [completeStage, ha]
  · intro now msg; simp [addWarning, ha]
  · intro now msg; simp [addError, ha, hc]
  · intro now res; simp [completeJob, ha]
  · intro now msg; simp [failJob, ha]
  · simp [getJob, ha, hc]

/-- Witness for C10 on the empty tracker and an unknown job id. -/
theorem c10_unknown_job_noop_witness :
    updateProgress ⟨[], [], []⟩ 0 "missing" 50 ⟨none, none⟩ = (⟨[], [], []⟩, [], none) ∧
    getJob ⟨[], [], []⟩ "missing" = none :=
  ⟨(c10_unknown_job_noop ⟨[], [], []⟩ "missing" rfl rfl).1 0 50 ⟨none, none⟩,
   (c10_unknown_job_noop ⟨[], [], []⟩ "missing" rfl rfl).2.2.2.2.2.2.2⟩

/-- The placeholder cascade succeeds when Sharp or the generic stock download
works. -/
theorem placeholderChain_ok (env : ResolveEnv) (sid : String)
    (h : env.sharpOk sid = true ∨ env.fallbackOk sid = true) :
    ∃ p, placeholderChain env sid = .ok p := by
  unfold placeholderChain
  by_cases hs : env.sharpOk sid = true
  · exact ⟨sid ++ "_placeholder.png", by rw [if_pos hs]⟩
  · rcases h with h | h
    · exact absurd h hs
    · exact ⟨sid ++ "_fallback.jpg", by rw [if_neg hs, if_pos h]⟩

/-- When the placeholder cascade works for a scene, its resolution always
produces exactly one asset carrying the scene's id — whatever the provider
search and download do. -/
theorem resolveScene_ok (env : ResolveEnv) (sc : Scene)
    (h : env.sharpOk sc.id = true ∨ env.fallbackOk sc.id = true) :
    ∃ a, resolveScene env sc = .ok a ∧ a.sceneId = sc.id := by
  obtain ⟨p, hp⟩ := placeholderChain_ok env sc.id h
  cases hsearch : env.search sc.id with
  | throws e =>
      refine ⟨placeholderAsset sc ("Placeholder for " ++ sc.id) p, ?_, rfl⟩
      simp [resolveScene, resolveSceneTry, hsearch, hp, Bind.bind, Except.bind,
        pure, Except.pure]
  | results cands =>
      cases cands with
      | nil =>
          refine ⟨placeholderAsset sc ("Placeholder for " ++ sc.id ++ " (no results)") p,
            ?_, rfl⟩
          simp [resolveScene, resolveSceneTry, hsearch, hp, Bind.bind, Except.bind,
            pure, Except.pure]
      | cons c rest =>
          by_cases hd : env.downloadOk sc.id = true
          · refine ⟨⟨sc.id, c.ctype,
              sc.id ++ "." ++ (if c.ctype = "video" then "mp4" else "jpg"),
              c.title, sc.duration⟩, ?_, rfl⟩
            simp [resolveScene, resolveSceneTry, hsearch, hd]
          · refine ⟨placeholderAsset sc ("Placeholder for " ++ sc.id ++ " (download failed)") p,
              ?_, rfl⟩
            simp [resolveScene, resolveSceneTry, hsearch, hd, hp, Bind.bind, Except.bind,
              pure, Except.pure]

/-- C1 (amended): whenever the placeholder cascade works for every scene, the
asset resolver is total — exactly one asset per scene, in order, keyed by the
scene's id — even when the provider search returns empty results or throws
for every scene; but an uncaught per-scene cascade failure aborts the whole
loop, so the remaining scenes are not processed. -/
theorem c1_asset_resolution_amended :
    (∀ (env : ResolveEnv) (scenes : List Scene),
        (∀ sc ∈ scenes, env.sharpOk sc.id = true ∨ env.fallbackOk sc.id = true) →
        ∃ assets, generateVisualAssets env scenes = .ok assets ∧
          assets.length = scenes.length ∧
          (∀ i : ℕ, (assets[i]?).map Asset.sceneId = (scenes[i]?).map Scene.id)) ∧
    (∀ (env : ResolveEnv) (sc : Scene) (rest : List Scene) (e : String),
        resolveScene env sc = .error e →
        generateVisualAssets env (sc :: rest) = .error e) := by
  constructor
  · intro env scenes
    induction scenes with
    | nil =>
        intro _
        exact ⟨[], rfl, rfl, by intro i; simp⟩
    | cons sc rest ih =>
        intro h
        obtain ⟨a, ha, hid⟩ := resolveScene_ok env sc (h sc (by simp))
        obtain ⟨as, has, hlen, hpt⟩ := ih (fun u hu => h u (List.mem_cons_of_mem _ hu))
        refine ⟨a :: as, ?_, by simp [hlen], ?_⟩
        · simp [generateVisualAssets, ha, has, Bind.bind, Except.bind, pure, Except.pure]
        · intro i
          cases i with
          | zero => simp [hid]
          | succ j => simpa using hpt j
  · intro env sc rest e he
    simp [generateVisualAssets, he, Bind.bind, Except.bind]

/-- A two-scene analysis where every provider search comes back empty and the
placeholder cascade fails for scene 1 but works for scene 2. -/
def c1envAllFail : ResolveEnv :=
  ⟨fun _ => .results [], fun _ => false,
   fun sid => sid = "scene_2", fun _ => false⟩

def c1sceneOne : Scene := ⟨"scene_1", 0, 5, 5, "a", "", "", "", "image"⟩

def c1sceneTwo : Scene := ⟨"scene_2", 5, 10, 5, "b", "", "", "", "image"⟩

/-- C1 counterexample: when every cascade tier fails for scene 1, the whole
resolver throws — scene 2 is never processed and no per-scene asset list is
produced, so the failure is not isolated to scene 1. -/
theorem c1_counterexample :
    generateVisualAssets c1envAllFail [c1sceneOne, c1sceneTwo] =
      .error "Failed to create any placeholder for scene scene_1" := by
  rfl

/-- Witness for C1 (amended) on the same scenes with a provider that always
throws and a working Sharp synthesizer. -/
theorem c1_asset_resolution_amended_witness :
    ∃ assets,
      generateVisualAssets
        ⟨fun _ => .throws "network down", fun _ => false, fun _ => true, fun _ => false⟩
        [c1sceneOne, c1sceneTwo] = .ok assets ∧
      assets.length = [c1sceneOne, c1sceneTwo].length ∧
      (∀ i : ℕ, (assets[i]?).map Asset.sceneId =
        ([c1sceneOne, c1sceneTwo][i]?).map Scene.id) :=
  c1_asset_resolution_amended.1
    ⟨fun _ => .throws "network down", fun _ => false, fun _ => true, fun _ => false⟩
    [c1sceneOne, c1sceneTwo] (by intro sc _; left; rfl)

/-- C2 counterexample: when the FFmpeg render, the HTML slideshow write and
the JSON data-dump write all fail, the render stage throws instead of
returning an artifact path — the component is not throw-free. -/
theorem c2_counterexample :
    renderWithFallback ⟨false, false, false⟩ "vid1" =
      .error "slideshow and data-dump generation both failed" := by
  rfl

/-- C2 (amended): provided the ultimate JSON data-dump write succeeds, the
render stage always returns an artifact path whose suffix identifies its kind
(`.mp4` video, `_slideshow.html` slideshow, `_data.json` data dump); an
encoding failure never yields the `.mp4` path, and `saveVideoProject` hands
the artifact path through to the caller unchanged. -/
theorem c2_render_artifact_amended (env : RenderEnv) (videoId : String)
    (hjson : env.jsonWriteOk = true) :
    renderWithFallback env videoId =
      .ok (videoId ++ (if env.renderOk then ".mp4"
        else if env.htmlWriteOk then "_slideshow.html" else "_data.json")) ∧
    (env.renderOk = false →
      renderWithFallback env videoId ≠ .ok (videoId ++ ".mp4")) ∧
    (∀ p : String, (saveVideoProject videoId p).videoPath = p) := by
  refine ⟨?_, ?_, fun p => rfl⟩
  · unfold renderWithFallback createSlideshowFallback
    by_cases hr : env.renderOk = true
    · simp [hr]
    · by_cases hh : env.htmlWriteOk = true
      · simp [hr, hh]
      · simp [hr, hh, hjson]
  · intro hr heq
    unfold renderWithFallback createSlideshowFallback at heq
    rw [hr] at heq
    simp only [Bool.false_eq_true, if_false] at heq
    by_cases hh : env.htmlWriteOk = true
    · rw [if_pos hh] at heq
      have hstr := Except.ok.inj heq
      have hlen := congrArg String.length hstr
      rw [String.length_append, String.length_append] at hlen
      have h1 : ("_slideshow.html" : String).length = 15 := by decide
      have h2 : (".mp4" : String).length = 4 := by decide
      omega
    · rw [if_neg hh, if_pos hjson] at heq
      have hstr := Except.ok.inj heq
      have hlen := congrArg String.length hstr
      rw [String.length_append, String.length_append] at hlen
      have h1 : ("_data.json" : String).length = 10 := by decide
      have h2 : (".mp4" : String).length = 4 := by decide
      omega

/-- Witness for C2 (amended) with a failing renderer and working slideshow
write. -/
theorem c2_render_artifact_amended_witness :
    renderWithFallback ⟨false, true, true⟩ "vid2" =
      .ok ("vid2" ++ (if (false : Bool) then ".mp4"
        else if (true : Bool) then "_slideshow.html" else "_data.json")) ∧
    ((false : Bool) = false →
      renderWithFallback ⟨false, true, true⟩ "vid2" ≠ .ok ("vid2" ++ ".mp4")) ∧
    (∀ p : String, (saveVideoProject "vid2" p).videoPath = p) :=
  c2_render_artifact_amended ⟨false, true, true⟩ "vid2" rfl

/-! ## Helper lemmas about the script analyzer -/

/-- Field equations of a successfully analyzed scene. -/
theorem analyzeScene_ok_fields (i : ℕ) (sc : RawScene) (o : Scene)
    (h : analyzeScene i sc = .ok o) :
    o.id = "scene_" ++ toString (i + 1) ∧
    o.startTime = jsNumOr sc.startTime 0 ∧
    o.endTime = jsNumOr sc.endTime 5 ∧
    o.duration = jsNumOr sc.endTime 5 - jsNumOr sc.startTime 0 ∧
    o.mediaType = determineMediaType sc.visualDirection ∧
    ∃ kw, extractVisualKeywords (jsOrVal sc.visualDirection (voiceVal sc.voiceover)) =
        .ok kw ∧ o.searchKeywords = kw := by
  unfold analyzeScene at h
  cases hkw : extractVisualKeywords (jsOrVal sc.visualDirection (voiceVal sc.voiceover)) with
  | error e =>
      rw [hkw] at h
      simp [Bind.bind, Except.bind] at h
  | ok kw =>
      rw [hkw] at h
      simp only [Bind.bind, Except.bind, pure, Except.pure, Except.ok.injEq] at h
      subst h
      exact ⟨rfl, rfl, rfl, rfl, rfl, kw, rfl, rfl⟩

/-- Success of the scene loop, with pointwise correspondence to the raw
scenes. -/
theorem analyzeScenes_ok_pointwise :
    ∀ (l : List RawScene) (i : ℕ) (out : List Scene),
      analyzeScenes i l = .ok out →
      out.length = l.length ∧
      ∀ (k : ℕ) (sc : RawScene), l[k]? = some sc →
        ∃ o, out[k]? = some o ∧ analyzeScene (i + k) sc = .ok o := by
  intro l
  induction l with
  | nil =>
      intro i out h
      simp only [analyzeScenes, Except.ok.injEq] at h
      subst h
      exact ⟨rfl, by intro k sc hk; simp at hk⟩
  | cons sc rest ih =>
      intro i out h
      unfold analyzeScenes at h
      cases h1 : analyzeScene i sc with
      | error e =>
          rw [h1] at h
          simp [Bind.bind, Except.bind] at h
      | ok s =>
          rw [h1] at h
          cases h2 : analyzeScenes (i + 1) rest with
          | error e =>
              rw [h2] at h
              simp [Bind.bind, Except.bind] at h
          | ok ss =>
              rw [h2] at h
              simp only [Bind.bind, Except.bind, pure, Except.pure, Except.ok.injEq] at h
              subst h
              obtain ⟨hlen, hpt⟩ := ih (i + 1) ss h2
              refine ⟨by simp [hlen], ?_⟩
              intro k sc2 hk
              cases k with
              | zero =>
                  simp only [List.getElem?_cons_zero, Option.some.injEq] at hk
                  subst hk
                  exact ⟨s, by simp, by simpa using h1⟩
              | succ j =>
                  simp only [List.getElem?_cons_succ] at hk
                  obtain ⟨o, ho, ha⟩ := hpt j sc2 hk
                  refine ⟨o, by simpa using ho, ?_⟩
                  rw [show i + (j + 1) = i + 1 + j by omega]
                  exact ha

/-- The scene loop succeeds when every scene's keyword source is a string. -/
theorem analyzeScenes_ok_of_str :
    ∀ (l : List RawScene) (i : ℕ),
      (∀ sc ∈ l, ∃ s, jsOrVal sc.visualDirection (voiceVal sc.voiceover) = .str s) →
      ∃ out, analyzeScenes i l = .ok out := by
  intro l
  induction l with
  | nil => intro i _; exact ⟨[], rfl⟩
  | cons sc rest ih =>
      intro i h
      obtain ⟨s, hs⟩ := h sc (by simp)
      obtain ⟨ss, hss⟩ := ih (i + 1) (fun u hu => h u (List.mem_cons_of_mem _ hu))
      have hsc : ∃ o, analyzeScene i sc = .ok o := by
        unfold analyzeScene
        rw [hs]
        exact ⟨_, rfl⟩
      obtain ⟨o, ho⟩ := hsc
      refine ⟨o :: ss, ?_⟩
      unfold analyzeScenes
      rw [ho]
      simp only [Bind.bind, Except.bind]
      rw [hss]
      rfl

/-- C6 counterexample: a scene whose visual-direction is the number 42 (truthy
but not a string) makes `analyzeScript` throw a `TypeError`, although its
narration is a perfectly good string — script analysis is not failure-free. -/
theorem c6_counterexample :
    analyzeScript ⟨none, none, none,
      [⟨none, none, some "hello world", .num 42, none⟩]⟩ =
      .error "TypeError: text.toLowerCase is not a function" := by
  rfl

/-- C6 (amended): script analysis succeeds exactly when every scene's keyword
source (the visual-direction when truthy, otherwise the narration) is a
string; a successfully analyzed scene with an absent or non-string
visual-direction takes media-type `image`, a falsy visual-direction falls
back to the narration text for keyword extraction, and a truthy non-string
visual-direction makes the analysis throw a `TypeError`. -/
theorem c6_analysis_amended :
    (∀ script : RawScript,
        (∀ sc ∈ script.scenes,
          ∃ s, jsOrVal sc.visualDirection (voiceVal sc.voiceover) = .str s) →
        ∃ a, analyzeScript script = .ok a) ∧
    (∀ (i : ℕ) (sc : RawScene) (o : Scene), analyzeScene i sc = .ok o →
        (∀ s, sc.visualDirection ≠ .str s) → o.mediaType = "image") ∧
    (∀ (i : ℕ) (sc : RawScene) (s : String), sc.voiceover = some s →
        sc.visualDirection.truthy = false →
        ∃ o, analyzeScene i sc = .ok o ∧
          o.searchKeywords = extractKeywordsStr s ∧ o.mediaType = "image") ∧
    (∀ (i : ℕ) (sc : RawScene) (q : ℚ), sc.visualDirection = .num q → q ≠ 0 →
        ∃ e, analyzeScene i sc = .error e) := by
  refine ⟨?_, ?_, ?_, ?_⟩
  · intro script h
    obtain ⟨out, hout⟩ := analyzeScenes_ok_of_str script.scenes 0 h
    refine ⟨{ title := jsStrOr script.title "Generated Video"
              totalDuration := jsNumOr script.duration 30
              platform := jsStrOr script.platform "general"
              scenes := out }, ?_⟩
    unfold analyzeScript
    rw [hout]
    rfl
  · intro i sc o h hns
    obtain ⟨_, _, _, _, hmt, _⟩ := analyzeScene_ok_fields i sc o h
    rw [hmt]
    cases hvd : sc.visualDirection with
    | undefined => rfl
    | num q => rfl
    | str s => exact absurd hvd (hns s)
  · intro i sc s hvo hfalsy
    have hsel : jsOrVal sc.visualDirection (voiceVal sc.voiceover) = .str s := by
      unfold jsOrVal
      rw [hfalsy, hvo]
      rfl
    have hsc : ∃ o, analyzeScene i sc = .ok o := by
      unfold analyzeScene
      rw [hsel]
      exact ⟨_, rfl⟩
    obtain ⟨o, ho⟩ := hsc
    obtain ⟨_, _, _, _, hmt, kw, hkw, hkweq⟩ := analyzeScene_ok_fields i sc o ho
    refine ⟨o, ho, ?_, ?_⟩
    · rw [hsel] at hkw
      simp only [extractVisualKeywords, Except.ok.injEq] at hkw
      rw [hkweq, ← hkw]
    · rw [hmt]
      cases hvd : sc.visualDirection with
      | undefined => rfl
      | num q => rfl
      | str t =>
          have : t = "" := by
            rw [hvd] at hfalsy
            simpa [JsVal.truthy] using hfalsy
          subst this
          rfl
  · intro i sc q hvd hq
    have hsel : jsOrVal sc.visualDirection (voiceVal sc.voiceover) = .num q := by
      unfold jsOrVal
      rw [hvd]
      simp [JsVal.truthy, hq]
    refine ⟨"TypeError: text.toLowerCase is not a function", ?_⟩
    unfold analyzeScene
    rw [hsel]
    rfl

/-- Witness for C6 (amended): a script whose only scene has an absent
visual-direction and string narration analyzes successfully. -/
theorem c6_analysis_amended_witness :
    ∃ a, analyzeScript ⟨none, none, none,
      [⟨none, none, some "city skyline at night", .undefined, none⟩]⟩ = .ok a :=
  c6_analysis_amended.1
    ⟨none, none, none, [⟨none, none, some "city skyline at night", .undefined, none⟩]⟩
    (by intro sc hsc; simp at hsc; subst hsc; exact ⟨"city skyline at night", rfl⟩)

/-- Raw script for the C7 counterexample: startTime 10, endTime unspecified. -/
def c7script : RawScript :=
  ⟨none, none, none, [⟨some 10, none, some "hi there", .str "sunset over bay", none⟩]⟩

/-- C7 counterexample: a raw scene with `startTime: 10` and no `endTime` is
analyzed into a Scene with `startTime = 10`, `endTime = 5` (the default) and
duration `-5` — `endTime > startTime` does not hold for every produced
scene. -/
theorem c7_counterexample :
    (analyzeScript c7script).map (fun a =>
      a.scenes.map (fun sc => (sc.startTime, sc.endTime, sc.duration))) =
      .ok [((10 : ℚ), (5 : ℚ), (5 : ℚ) - 10)] := by
  rfl

/-- C7 (amended): scenes produced by a successful analysis satisfy
`endTime > startTime` (with strictly positive duration) provided each raw
scene's effective end time (default 5) exceeds its effective start time
(default 0); a raw scene with both times unspecified receives the default
0–5 window with duration 5. -/
theorem c7_scene_window_amended (script : RawScript) (a : ScriptAnalysis)
    (hok : analyzeScript script = .ok a)
    (hgood : ∀ sc ∈ script.scenes, jsNumOr sc.startTime 0 < jsNumOr sc.endTime 5) :
    (∀ o ∈ a.scenes, o.startTime < o.endTime ∧ 0 < o.duration) ∧
    (∀ (k : ℕ) (sc : RawScene), script.scenes[k]? = some sc →
        sc.startTime = none → sc.endTime = none →
        ∃ o, a.scenes[k]? = some o ∧
          o.startTime = 0 ∧ o.endTime = 5 ∧ o.duration = 5 - 0) := by
  have hscenes : ∃ out, analyzeScenes 0 script.scenes = .ok out ∧ a.scenes = out := by
    unfold analyzeScript at hok
    cases hx : analyzeScenes 0 script.scenes with
    | error e =>
        rw [hx] at hok
        simp [Bind.bind, Except.bind] at hok
    | ok out =>
        rw [hx] at hok
        simp only [Bind.bind, Except.bind, pure, Except.pure, Except.ok.injEq] at hok
        exact ⟨out, rfl, by rw [← hok]⟩
  obtain ⟨out, hout, haeq⟩ := hscenes
  obtain ⟨hlen, hpt⟩ := analyzeScenes_ok_pointwise script.scenes 0 out hout
  constructor
  · intro o ho
    rw [haeq] at ho
    obtain ⟨k, hk⟩ := List.mem_iff_getElem?.mp ho
    have hk2 : k < script.scenes.length := by
      have hklt : k < out.length := by
        by_contra hge
        rw [List.getElem?_eq_none (by omega)] at hk
        exact Option.noConfusion hk
      omega
    obtain ⟨sc, hsc⟩ : ∃ sc, script.scenes[k]? = some sc :=
      ⟨script.scenes[k], List.getElem?_eq_getElem hk2⟩
    obtain ⟨o2, ho2, hana⟩ := hpt k sc hsc
    have : o2 = o := by
      rw [hk] at ho2
      exact (Option.some.inj ho2).symm
    subst this
    obtain ⟨_, hst, het, hdur, _, _⟩ := analyzeScene_ok_fields _ _ _ hana
    have hlt := hgood sc (List.getElem?_mem hsc)
    constructor
    · rw [hst, het]; exact hlt
    · rw [hdur]; linarith
  · intro k sc hk hstn hetn
    obtain ⟨o, ho, hana⟩ := hpt k sc hk
    obtain ⟨_, hst, het, hdur, _, _⟩ := analyzeScene_ok_fields _ _ _ hana
    refine ⟨o, by rw [haeq]; exact ho, ?_, ?_, ?_⟩
    · rw [hst, hstn]; rfl
    · rw [het, hetn]; rfl
    · rw [hdur, hstn, hetn]; rfl

/-- Raw script and analysis for the C7 witness: one scene with both times
unspecified. -/
def c7wScript : RawScript :=
  ⟨none, none, none, [⟨none, none, some "hi", .undefined, none⟩]⟩

def c7wAnalysis : ScriptAnalysis :=
  ⟨"Generated Video", 30, "general",
   [⟨"scene_1", 0, 5, 5 - 0, "hi", "", "", extractKeywordsStr "hi", "image"⟩]⟩

/-- Witness for C7 (amended) on a one-scene script with default window. -/
theorem c7_scene_window_amended_witness :
    (∀ o ∈ c7wAnalysis.scenes, o.startTime < o.endTime ∧ 0 < o.duration) ∧
    (∀ (k : ℕ) (sc : RawScene), c7wScript.scenes[k]? = some sc →
        sc.startTime = none → sc.endTime = none →
        ∃ o, c7wAnalysis.scenes[k]? = some o ∧
          o.startTime = 0 ∧ o.endTime = 5 ∧ o.duration = 5 - 0) :=
  c7_scene_window_amended c7wScript c7wAnalysis rfl
    (by
      intro sc hsc
      simp [c7wScript] at hsc
      subst hsc
      norm_num [jsNumOr])

/-! ## Helper lemmas about the tracker operations -/

/-- `completeStage` touches only the stage list of the target job: every other
field of the job survives. -/
theorem completeStage_get_active (st : TrackerState) (now : ℕ) (id name res : String)
    (j : Job) (h : jmGet st.active id = some j) :
    ∃ j2, jmGet (completeStage st now id name res).1.active id = some j2 ∧
      j2.errors = j.errors ∧ j2.status = j.status ∧ j2.startTime = j.startTime ∧
      j2.currentStage = j.currentStage ∧ j2.progress = j.progress ∧
      j2.warnings = j.warnings ∧ j2.jtype = j.jtype := by
  cases hfind : j.stages.find? (fun s => s.name = name) with
  | none =>
      refine ⟨j, ?_, rfl, rfl, rfl, rfl, rfl, rfl, rfl⟩
      simp [completeStage, h, hfind]
  | some stg =>
      refine ⟨{ j with stages := j.stages.map (fun s =>
          if s.name = name then
            { stg with endTime := some now, duration := some (now - stg.startTime)
                       status := "completed", progress := 100, result := some res }
          else s) }, ?_, rfl, rfl, rfl, rfl, rfl, rfl, rfl⟩
      simp [completeStage, h, hfind, jmGet_jmSet_self]

/-- `completeStage` never touches the completed-jobs map. -/
theorem completeStage_completed (st : TrackerState) (now : ℕ) (id name res : String) :
    (completeStage st now id name res).1.completed = st.completed := by
  cases h : jmGet st.active id with
  | none => simp [completeStage, h]
  | some j =>
      cases hfind : j.stages.find? (fun s => s.name = name) with
      | none => simp [completeStage, h, hfind]
      | some stg => simp [completeStage, h, hfind]

/-- C4 (amended): adding a warning never changes any job's status; adding an
error appends the entry and sets the status to `error` immediately — including
for jobs already in the completed map, so a completed status is not terminal
under `addError`; `completeJob` derives the final status from the error list
(`completed_with_errors` exactly when it is non-empty); and `failJob` records
the error and sets `failed`. -/
theorem c4_status_transitions_amended :
    (∀ (st : TrackerState) (now : ℕ) (id msg k : String),
        getJobStatus (addWarning st now id msg).1 k = getJobStatus st k) ∧
    (∀ (st : TrackerState) (now : ℕ) (id msg : String) (j : Job),
        getJob st id = some j →
        getJob (addError st now id msg).1 id =
          some { j with errors := j.errors ++ [⟨msg, now, j.currentStage⟩]
                        status := "error" }) ∧
    (∀ (st : TrackerState) (now : ℕ) (id res : String) (j : Job),
        jmGet st.active id = some j →
        getJobStatus (completeJob st now id res).1 id =
          some (if j.errors.isEmpty then "completed" else "completed_with_errors")) ∧
    (∀ (st : TrackerState) (now : ℕ) (id msg : String) (j : Job),
        jmGet st.active id = some j →
        getJobStatus (failJob st now id msg).1 id = some "failed" ∧
        (getJob (failJob st now id msg).1 id).map Job.errors =
          some (j.errors ++ [⟨msg, now, j.currentStage⟩])) := by
  refine ⟨?_, ?_, ?_, ?_⟩
  · intro st now id msg k
    cases h : jmGet st.active id with
    | none => simp [addWarning, h]
    | some j =>
        by_cases hk : id = k
        · subst hk
          simp [addWarning, h, getJobStatus, getJob, jmGet_jmSet_self]
        · simp [addWarning, h, getJobStatus, getJob, jmGet_jmSet_ne _ _ _ _ hk]
  · intro st now id msg j hj
    cases h : jmGet st.active id with
    | some ja =>
        have hja : ja = j := by
          unfold getJob at hj
          rw [h] at hj
          exact Option.some.inj hj
        subst hja
        simp [addError, h, getJob, jmGet_jmSet_self]
    | none =>
        have hc : jmGet st.completed id = some j := by
          unfold getJob at hj
          rw [h] at hj
          exact hj
        simp [addError, h, hc, getJob, jmGet_jmSet_self]
  · intro st now id res j hj
    cases hcs : j.currentStage with
    | none =>
        simp [completeJob, hj, hcs, getJobStatus, getJob, jmGet_jmErase_self,
          jmGet_jmSet_self]
    | some cur =>
        obtain ⟨j2, hget, herr, _, _, _, _, _, _⟩ :=
          completeStage_get_active st now id cur "" j hj
        simp only [completeJob, hj, hcs]
        rw [hget]
        simp [getJobStatus, getJob, jmGet_jmErase_self, jmGet_jmSet_self, herr]
  · intro st now id msg j hj
    have haft : (addError st now id msg).1 = { st with
        active := jmSet st.active id { j with
          errors := j.errors ++ [⟨msg, now, j.currentStage⟩], status := "error" } } := by
      simp [addError, hj]
    constructor
    · simp only [failJob, hj, haft]
      rw [jmGet_jmSet_self]
      simp [getJobStatus, getJob, jmGet_jmErase_self, jmGet_jmSet_self]
    · simp only [failJob, hj, haft]
      rw [jmGet_jmSet_self]
      simp [getJob, jmGet_jmErase_self, jmGet_jmSet_self]

def c4st1 : TrackerState := (createJob ⟨[], [], []⟩ 0 "job1" "video-generation").1

def c4st2 : TrackerState := (completeJob c4st1 1 "job1" "done").1

def c4st3 : TrackerState := (addError c4st2 2 "job1" "late failure").1

/-- C4 counterexample: a job that has reached the terminal status `completed`
is mutated back to status `error` by a later `addError` — the terminal values
are not stable, and the status change does not wait for job completion. -/
theorem c4_counterexample :
    getJobStatus c4st2 "job1" = some "completed" ∧
    getJobStatus c4st3 "job1" = some "error" := by
  constructor <;> rfl

def c4wJob : Job := (createJob ⟨[], [], []⟩ 0 "w" "t").2.2

def c4wSt : TrackerState := (createJob ⟨[], [], []⟩ 0 "w" "t").1

/-- Witness for C4 (amended): completing a freshly created, error-free job
yields status `completed`. -/
theorem c4_status_transitions_amended_witness :
    getJobStatus (completeJob c4wSt 5 "w" "r").1 "w" =
      some (if c4wJob.errors.isEmpty then "completed" else "completed_with_errors") :=
  c4_status_transitions_amended.2.2.1 c4wSt 5 "w" "r" c4wJob rfl

/-- The 0–100 progress invariant over every tracked job, active or
completed. -/
def progressInRange (st : TrackerState) : Prop :=
  (∀ p ∈ st.active, 0 ≤ p.2.progress ∧ p.2.progress ≤ 100) ∧
  (∀ p ∈ st.completed, 0 ≤ p.2.progress ∧ p.2.progress ≤ 100)

theorem progressInRange_setActive (st : TrackerState) (h : progressInRange st)
    (id : String) (j : Job) (hb : 0 ≤ j.progress ∧ j.progress ≤ 100) :
    progressInRange { st with active := jmSet st.active id j } := by
  constructor
  · intro p hp
    rcases mem_jmSet _ _ _ _ hp with h1 | h1
    · subst h1; exact hb
    · exact h.1 p h1
  · exact h.2

theorem range_of_jmGet_active (st : TrackerState) (h : progressInRange st)
    (id : String) (j : Job) (hj : jmGet st.active id = some j) :
    0 ≤ j.progress ∧ j.progress ≤ 100 :=
  h.1 (id, j) (jmGet_mem _ _ _ hj)

theorem progressInRange_completeStage (st : TrackerState) (now : ℕ)
    (id name res : String) (h : progressInRange st) :
    progressInRange (completeStage st now id name res).1 := by
  cases hg : jmGet st.active id with
  | none => simpa [completeStage, hg] using h
  | some j =>
      cases hfind : j.stages.find? (fun s => s.name = name) with
      | none => simpa [completeStage, hg, hfind] using h
      | some stg =>
          simp only [completeStage, hg, hfind]
          exact progressInRange_setActive st h id _ (range_of_jmGet_active st h id j hg)

theorem progressInRange_startStage (st : TrackerState) (now : ℕ) (id name : String)
    (h : progressInRange st) : progressInRange (startStage st now id name).1 := by
  cases hg : jmGet st.active id with
  | none => simpa [startStage, hg] using h
  | some j =>
      cases hcs : j.currentStage with
      | none =>
          simp only [startStage, hg, hcs]
          exact progressInRange_setActive st h id _ (range_of_jmGet_active st h id j hg)
      | some cur =>
          simp only [startStage, hg, hcs]
          have hPrev := progressInRange_completeStage st now id cur "" h
          cases hg2 : jmGet (completeStage st now id cur "").1.active id with
          | none => simpa [hg2] using hPrev
          | some j1 =>
              simp only [hg2]
              exact progressInRange_setActive _ hPrev id _
                (range_of_jmGet_active _ hPrev id j1 hg2)

theorem progressInRange_setLastMessage (st : TrackerState) (id msg : String)
    (h : progressInRange st) : progressInRange (setLastMessage st id msg) := by
  cases hg : jmGet st.active id with
  | none => simpa [setLastMessage, hg] using h
  | some j =>
      simp only [setLastMessage, hg]
      exact progressInRange_setActive st h id _ (range_of_jmGet_active st h id j hg)

theorem clamp_progress_range (p : ℚ) : 0 ≤ min 100 (max 0 p) ∧ min 100 (max 0 p) ≤ 100 :=
  ⟨le_min (by norm_num) (le_max_left 0 p), min_le_left _ _⟩

theorem progressInRange_updateProgress (st : TrackerState) (now : ℕ) (id : String)
    (p : ℚ) (det : ProgressDetails) (h : progressInRange st) :
    progressInRange (updateProgress st now id p det).1 := by
  cases hg : jmGet st.active id with
  | none => simpa [updateProgress, hg] using h
  | some j =>
      have h1 : progressInRange { st with
          active := jmSet st.active id { j with
            progress := min 100 (max 0 p), lastUpdate := some now } } :=
        progressInRange_setActive st h id _ (clamp_progress_range p)
      obtain ⟨ds, dm⟩ := det
      cases ds with
      | none =>
          cases dm with
          | none => simpa [updateProgress, hg] using h1
          | some m =>
              by_cases hm : m ≠ ""
              · simpa [updateProgress, hg, hm] using
                  progressInRange_setLastMessage _ id m h1
              · simpa [updateProgress, hg, hm] using h1
      | some s =>
          by_cases hcnd : s ≠ "" ∧ some s ≠
              ({ j with progress := min 100 (max 0 p), lastUpdate := some now} : Job).currentStage
          · have h2 := progressInRange_startStage _ now id s h1
            cases dm with
            | none => simpa [updateProgress, hg, hcnd] using h2
            | some m =>
                by_cases hm : m ≠ ""
                · simpa [updateProgress, hg, hcnd, hm] using
                    progressInRange_setLastMessage _ id m h2
                · simpa [updateProgress, hg, hcnd, hm] using h2
          · cases dm with
            | none => simpa [updateProgress, hg, hcnd] using h1
            | some m =>
                by_cases hm : m ≠ ""
                · simpa [updateProgress, hg, hcnd, hm] using
                    progressInRange_setLastMessage _ id m h1
                · simpa [updateProgress, hg, hcnd, hm] using h1

theorem progressInRange_addWarning (st : TrackerState) (now : ℕ) (id msg : String)
    (h : progressInRange st) : progressInRange (addWarning st now id msg).1 := by
  cases hg : jmGet st.active id with
  | none => simpa [addWarning, hg] using h
  | some j =>
      simp only [addWarning, hg]
      exact progressInRange_setActive st h id _ (range_of_jmGet_active st h id j hg)

theorem progressInRange_addError (st : TrackerState) (now : ℕ) (id msg : String)
    (h : progressInRange st) : progressInRange (addError st now id msg).1 := by
  cases hg : jmGet st.active id with
  | some j =>
      simp only [addError, hg]
      exact progressInRange_setActive st h id _ (range_of_jmGet_active st h id j hg)
  | none =>
      cases hc : jmGet st.completed id with
      | none => simpa [addError, hg, hc] using h
      | some j =>
          simp only [addError, hg, hc]
          constructor
          · exact h.1
          · intro q hq
            rcases mem_jmSet _ _ _ _ hq with h1 | h1
            · subst h1
              exact h.2 (id, j) (jmGet_mem _ _ _ hc)
            · exact h.2 q h1

theorem progressInRange_completeJob (st : TrackerState) (now : ℕ) (id res : String)
    (h : progressInRange st) : progressInRange (completeJob st now id res).1 := by
  cases hg : jmGet st.active id with
  | none => simpa [completeJob, hg] using h
  | some j =>
      cases hcs : j.currentStage with
      | none =>
          simp only [completeJob, hg, hcs]
          constructor
          · intro p hp
            exact h.1 p (mem_jmErase _ _ _ hp)
          · intro p hp
            rcases mem_jmSet _ _ _ _ hp with h1 | h1
            · subst h1
              exact ⟨by norm_num, by norm_num⟩
            · exact h.2 p h1
      | some cur =>
          have hPrev := progressInRange_completeStage st now id cur "" h
          simp only [completeJob, hg, hcs]
          cases hg2 : jmGet (completeStage st now id cur "").1.active id with
          | none => simpa [hg2] using hPrev
          | some j1 =>
              simp only [hg2]
              constructor
              · intro p hp
                exact hPrev.1 p (mem_jmErase _ _ _ hp)
              · intro p hp
                rcases mem_jmSet _ _ _ _ hp with h1 | h1
                · subst h1
                  exact ⟨by norm_num, by norm_num⟩
                · exact hPrev.2 p h1

theorem progressInRange_failJob (st : TrackerState) (now : ℕ) (id msg : String)
    (h : progressInRange st) : progressInRange (failJob st now id msg).1 := by
  cases hg : jmGet st.active id with
  | none => simpa [failJob, hg] using h
  | some j =>
      have hAft := progressInRange_addError st now id msg h
      simp only [failJob, hg]
      cases hg2 : jmGet (addError st now id msg).1.active id with
      | none => simpa [hg2] using hAft
      | some j1 =>
          simp only [hg2]
          constructor
          · intro p hp
            exact hAft.1 p (mem_jmErase _ _ _ hp)
          · intro p hp
            rcases mem_jmSet _ _ _ _ hp with h1 | h1
            · subst h1
              exact range_of_jmGet_active _ hAft id j1 hg2
            · exact hAft.2 p h1

/-- C5 (amended): the 0–100 bound on every stored progress value is an
invariant of all eight tracker operations (establishment at `createJob`,
preservation elsewhere); monotonicity is not among the tracker's guarantees —
see the counterexample. -/
theorem c5_progress_range_amended :
    (∀ (st : TrackerState) (now : ℕ) (id t : String), progressInRange st →
        progressInRange (createJob st now id t).1) ∧
    (∀ (st : TrackerState) (now : ℕ) (id : String) (p : ℚ) (det : ProgressDetails),
        progressInRange st → progressInRange (updateProgress st now id p det).1) ∧
    (∀ (st : TrackerState) (now : ℕ) (id name : String), progressInRange st →
        progressInRange (startStage st now id name).1) ∧
    (∀ (st : TrackerState) (now : ℕ) (id name res : String), progressInRange st →
        progressInRange (completeStage st now id name res).1) ∧
    (∀ (st : TrackerState) (now : ℕ) (id msg : String), progressInRange st →
        progressInRange (addWarning st now id msg).1) ∧
    (∀ (st : TrackerState) (now : ℕ) (id msg : String), progressInRange st →
        progressInRange (addError st now id msg).1) ∧
    (∀ (st : TrackerState) (now : ℕ) (id res : String), progressInRange st →
        progressInRange (completeJob st now id res).1) ∧
    (∀ (st : TrackerState) (now : ℕ) (id msg : String), progressInRange st →
        progressInRange (failJob st now id msg).1) := by
  refine ⟨?_, ?_, ?_, ?_, ?_, ?_, ?_, ?_⟩
  · intro st now id t h
    exact progressInRange_setActive st h id _ ⟨le_refl 0, by norm_num⟩
  · intro st now id p det h
    exact progressInRange_updateProgress st now id p det h
  · intro st now id name h
    exact progressInRange_startStage st now id name h
  · intro st now id name res h
    exact progressInRange_completeStage st now id name res h
  · intro st now id msg h
    exact progressInRange_addWarning st now id msg h
  · intro st now id msg h
    exact progressInRange_addError st now id msg h
  · intro st now id res h
    exact progressInRange_completeJob st now id res h
  · intro st now id msg h
    exact progressInRange_failJob st now id msg h

def c5st1 : TrackerState := (createJob ⟨[], [], []⟩ 0 "job1" "t").1

def c5st2 : TrackerState := (updateProgress c5st1 1 "job1" 50 ⟨none, none⟩).1

def c5st3 : TrackerState := (updateProgress c5st2 2 "job1" 30 ⟨none, none⟩).1

/-- C5 counterexample: `updateProgress` stores the clamped requested value
even when it is lower — progress 50 is followed by progress 30 on the same
job, so the stored progress is not monotonically non-decreasing. -/
theorem c5_counterexample :
    (getJob c5st2 "job1").map Job.progress = some 50 ∧
    (getJob c5st3 "job1").map Job.progress = some 30 := by
  constructor <;>
    simp +decide [c5st3, c5st2, c5st1, updateProgress, createJob, getJob, jmGet, jmSet,
      setLastMessage]

/-- Witness for C5 (amended): creating a job on the empty tracker preserves
the range invariant. -/
theorem c5_progress_range_amended_witness :
    progressInRange (createJob ⟨[], [], []⟩ 0 "w" "t").1 :=
  c5_progress_range_amended.1 ⟨[], [], []⟩ 0 "w" "t"
    ⟨by intro p hp; simp at hp, by intro p hp; simp at hp⟩
